import Mathlib

/-!
Verification of the GOImageScrape scraping pipeline (`images.go`).

The Go source is shallowly embedded: pure helpers become Lean functions;
the external collaborators (the HTTP stack of `net/http`, the HTML parser
behind `goquery`, the XML decoder of `encoding/xml`, the global PRNG of
`math/rand`) are passed in as explicit function arguments or carried as
data on the response value, so that every code path of the repository's
own functions is represented faithfully.  The concurrent coordinator
`scrapeImages` is embedded as a small-step transition system over an
explicit state, with one scheduled task per input URL, a counter for the
occupancy of the buffered `tokens` channel and counters for the sends and
receives on the buffered `worklist` channel.
-/

/-! ## HTML documents and goquery-style selection

`goquery` parses the response body into a node tree and `Find(selector)`
returns the matching element nodes in document order (a preorder walk).
`Selection.Attr(name)` reads the attribute off the first node of the
selection, returning an exists-flag. -/

/-- An HTML node: an element with a tag name, an ordered attribute list and
children, or a text node. -/
inductive HtmlNode where
  | elem (tag : String) (attrs : List (String × String)) (children : List HtmlNode)
  | text (content : String)

/-- First attribute with the given name, as `html.Node.Attr` lookup does. -/
def getAttr (attrs : List (String × String)) (name : String) : Option String :=
  (attrs.find? (fun a => a.1 == name)).map (fun a => a.2)

mutual
/-- All element nodes (the node itself and its descendants) satisfying the
predicate, in document order: the embedding of `goquery` selector matching. -/
def findAll (p : String → List (String × String) → Bool) : HtmlNode → List HtmlNode
  | .elem t a cs => (if p t a then [HtmlNode.elem t a cs] else []) ++ findAllList p cs
  | .text _ => []

/-- `findAll` over a forest of sibling nodes, left to right. -/
def findAllList (p : String → List (String × String) → Bool) : List HtmlNode → List HtmlNode
  | [] => []
  | n :: ns => findAll p n ++ findAllList p ns
end

/-- The selector `img`: any element whose tag is `img`. -/
def isImg (tag : String) (_ : List (String × String)) : Bool := tag == "img"

/-- Does `s` start with `pre`?  The character-list prefix test behind
`strings.HasPrefix`, which cascadia uses for the `^=` attribute selector. -/
def strStartsWith (s pre : String) : Bool := pre.data.isPrefixOf s.data

/-- The selector `meta[name^=description]`: a `meta` element whose `name`
attribute value starts with `description`. -/
def isDescriptionMeta (tag : String) (attrs : List (String × String)) : Bool :=
  tag == "meta" &&
    (match getAttr attrs "name" with
     | some v => strStartsWith v "description"
     | none => false)

/-- Attribute of a single node (`none` on a text node). -/
def nodeAttr (n : HtmlNode) (name : String) : Option String :=
  match n with
  | .elem _ attrs _ => getAttr attrs name
  | .text _ => none

/-- `goquery.Selection.Attr`: the attribute of the first node of the
selection; `none` when the selection is empty or the attribute is absent. -/
def selectionAttr (sel : List HtmlNode) (name : String) : Option String :=
  match sel with
  | [] => none
  | n :: _ => nodeAttr n name

/-! ## Data model -/

/-- `MediaData` from `images.go`: information about extracted images. -/
structure MediaData where
  url : String
  imageURLs : List String
  statusCode : Nat
  meta : String
deriving DecidableEq

/-- An HTTP response as `GetMediaData` consumes it.  `requestURL` is
`resp.Request.URL`: after `net/http` follows redirects, `resp.Request` is
the final request, so this is the effective URL, which can differ from
`requestedURL`, the URL originally handed to `makeRequest`.  `parsedDoc`
is the outcome of parsing the body as HTML (`goquery`'s
`NewDocumentFromResponse`): the root forest on success, an error when the
body cannot be parsed as a document at all. -/
structure Response where
  requestedURL : String
  requestURL : String
  statusCode : Nat
  parsedDoc : Except String (List HtmlNode)

/-- The `Each`-loop of `GetMediaData`: walk the `img` selection in order and
append the `src` attribute whenever it exists. -/
def collectImageURLs (imgs : List HtmlNode) : List String :=
  imgs.foldl
    (fun acc s =>
      match nodeAttr s "src" with
      | some src => acc ++ [src]
      | none => acc)
    []

/-- `DefaultParser.GetMediaData`: parse the response body, collect the `src`
of every `img` that has one, fill `URL`/`StatusCode` from the response
metadata, and read the `content` of the first `meta[name^=description]`
(ignoring the exists-flag, so an absent attribute leaves the empty string). -/
def GetMediaData (resp : Response) : Except String MediaData :=
  match resp.parsedDoc with
  | .error e => .error e
  | .ok doc =>
    let imageURLs := collectImageURLs (findAllList isImg doc)
    let result : MediaData :=
      { url := resp.requestURL
        imageURLs := imageURLs
        statusCode := resp.statusCode
        meta := "" }
    .ok { result with
          meta := (selectionAttr (findAllList isDescriptionMeta doc) "content").getD "" }

/-- Repeated application of the extractor to one fixed response. -/
def extractRepeatedly (resp : Response) (n : Nat) : List (Except String MediaData) :=
  (List.range n).map (fun _ => GetMediaData resp)

/-! Concrete documents used to exercise the extractor. -/

/-- The spec's example document: three images, the middle one without `src`. -/
def exampleImgDoc : List HtmlNode :=
  [HtmlNode.elem "html" []
    [HtmlNode.elem "body" []
      [HtmlNode.elem "img" [("src", "a.png")] [],
       HtmlNode.elem "img" [] [],
       HtmlNode.elem "img" [("src", "b.jpg")] []]]]

/-- The spec's example meta tag plus one image. -/
def exampleMetaDoc : List HtmlNode :=
  [HtmlNode.elem "html" []
    [HtmlNode.elem "head" []
      [HtmlNode.elem "meta" [("name", "description"), ("content", "hello")] []],
     HtmlNode.elem "body" [] [HtmlNode.elem "img" [("src", "x.gif")] []]]]

/-- A document with no description meta tag. -/
def exampleNoMetaDoc : List HtmlNode :=
  [HtmlNode.elem "html" []
    [HtmlNode.elem "head" [] [HtmlNode.elem "meta" [("name", "author"), ("content", "zz")] []],
     HtmlNode.elem "body" [] []]]

def exampleImgResp : Response :=
  { requestedURL := "http://orig.example/page"
    requestURL := "https://final.example/page"
    statusCode := 200
    parsedDoc := .ok exampleImgDoc }

def exampleMetaResp : Response :=
  { requestedURL := "http://site.example/a"
    requestURL := "http://site.example/a"
    statusCode := 200
    parsedDoc := .ok exampleMetaDoc }

def exampleNoMetaResp : Response :=
  { requestedURL := "http://site.example/b"
    requestURL := "http://site.example/b"
    statusCode := 404
    parsedDoc := .ok exampleNoMetaDoc }

/-! ## `randomUserAgent`

`randomUserAgent` calls `rand.Seed(time.Now().Unix())` and then draws
`rand.Int() % len(userAgents)`.  `time.Now().Unix()` truncates the current
time to whole seconds; after `Seed(s)` the first `rand.Int()` is a fixed
non-negative function of the seed `s` alone.  We model real time as a
millisecond count `nowMillis` and the seeded first draw as an arbitrary
function `randInt : Int → Nat` (non-negativity of `rand.Int` is reflected
in the `Nat` codomain). -/

/-- The fixed pool of the three User-Agent strings from `images.go`. -/
def userAgents : List String :=
  ["Mozilla/5.0 (Windows NT 10.0; Win64; x64) AppleWebKit/537.36 (KHTML, like Gecko) Chrome/61.0.3163.100 Safari/537.36",
   "Mozilla/5.0 (Macintosh; Intel Mac OS X 10_12_6) AppleWebKit/537.36 (KHTML, like Gecko) Chrome/61.0.3163.100 Safari/537.36",
   "Mozilla/5.0 (Windows NT 10.0; Win64; x64; rv:56.0) Gecko/20100101 Firefox/56.0"]

/-- `time.Now().Unix()`: the wall-clock time in milliseconds truncated to
whole seconds (Go integer division truncates toward zero; Unix timestamps
at run time are positive, where `Int.div` and `/` agree). -/
def unixSeconds (nowMillis : Int) : Int := nowMillis / 1000

/-- `randomUserAgent`: reseed the global source with the Unix timestamp and
index the pool with `rand.Int() % len(userAgents)`. -/
def randomUserAgent (randInt : Int → Nat) (nowMillis : Int) : String :=
  userAgents.get ⟨randInt (unixSeconds nowMillis) % userAgents.length, Nat.mod_lt _ (by decide)⟩

/-! ## `makeRequest`

`http.NewRequest` either builds a request or fails (for example on a
malformed URL), in which case the returned request pointer is nil.  The
Go code sets the User-Agent header on that pointer BEFORE checking the
error, so the failure branch of `http.NewRequest` is a nil-pointer
dereference: the program panics instead of returning the error.  The
embedding makes the crash explicit as a third outcome. -/

/-- An outgoing HTTP request: target URL plus headers. -/
structure Request where
  url : String
  headers : List (String × String)

/-- `req.Header.Set`: replace any existing value for the key. -/
def setHeader (req : Request) (key value : String) : Request :=
  { req with headers := (key, value) :: req.headers.filter (fun h => h.1 != key) }

/-- Outcome of running a fragment of Go code: a normal value, an error
returned as a value, or a runtime panic. -/
inductive GoOutcome (α : Type) where
  | ok (a : α)
  | err (e : String)
  | panicked
deriving DecidableEq

/-- `makeRequest`, following the Go control flow line by line.
`newRequest` embeds `http.NewRequest("GET", url, nil)` and `doRequest`
embeds `client.Do` of the 10-second-timeout client (a timeout or
connection failure is an `.error` from `doRequest`; a non-2xx status is a
normal response).  When `newRequest` fails, `req` is nil and the header
write `req.Header.Set(...)` that precedes the `if err != nil` check
dereferences it, so the run panics. -/
def makeRequest (newRequest : String → Except String Request)
    (doRequest : Request → Except String Response)
    (randInt : Int → Nat) (nowMillis : Int) (url : String) : GoOutcome Response :=
  match newRequest url with
  | .error _ => .panicked
  | .ok req =>
    let req := setHeader req "User-Agent" (randomUserAgent randInt nowMillis)
    match doRequest req with
    | .error e => .err e
    | .ok res => .ok res

/-! ## `parseSitemap`

`parseSitemap` fetches the sitemap URL with `makeRequest`, decodes the
body with `encoding/xml` into the `Sitemap` struct, and copies the `Loc`
field of each `<url>` entry, in order, into the result slice.  The
network fetch and the XML decoder are external, so the fetch outcome and
the decoder are parameters; the decoder yields the entries in document
order as `encoding/xml` does for a repeated element slice. -/

/-- One `<url>` entry of the sitemap, holding its `<loc>` text. -/
structure SitemapEntry where
  loc : String
deriving DecidableEq

/-- The decoded `urlset` document, entries in document order. -/
structure Sitemap where
  urls : List SitemapEntry
deriving DecidableEq

/-- `parseSitemap`, given the outcome of `makeRequest sitemapURL` and the
XML decoder applied to the response body.  The `for _, url := range
sitemap.Urls` loop is the fold appending `url.Loc`. -/
def parseSitemap (fetched : GoOutcome Response)
    (decode : Response → Except String Sitemap) : GoOutcome (List String) :=
  match fetched with
  | .panicked => .panicked
  | .err e => .err e
  | .ok resp =>
    match decode resp with
    | .error e => .err e
    | .ok sitemap => .ok (sitemap.urls.foldl (fun acc u => acc ++ [u.loc]) [])

/-! ## `scrapeImages` as a transition system

`scrapeImages(urls, parser, concurrency)` spawns one goroutine per URL.
Each goroutine runs, in order:
  1. `tokens <- struct{}{}`        (blocks while the buffered channel of
                                    capacity `concurrency` is full),
  2. `makeRequest` + `GetMediaData` (on error: `return`, running only the
                                    deferred `<-tokens`),
  3. `mu.Lock(); results = append(results, data); mu.Unlock()`,
  4. `worklist <- url`             (buffered channel of capacity
                                    `len(urls)`),
  5. the deferred `<-tokens`.
The main goroutine receives `len(urls)` times from `worklist` and then
returns `results`.

The embedding: `n` tasks indexed by `Fin n`; per task a program counter;
`tokens` is the occupancy of the token channel (a send is enabled only
when occupancy is below the capacity `B`, a receive only when it is
positive); `sent`/`received` count the sends and receives on `worklist`
(a send is enabled only when the buffer `sent - received` is below the
capacity `n`); whether the fetch-and-extract of task `k` succeeds is an
oracle `ok k` fixed by the outside world.  The mutex serialises the
appends, so an append is one atomic step. -/

/-- Program counter of one scraping goroutine. -/
inductive TaskPhase where
  | start    -- spawned; has not yet acquired a token
  | fetching -- token held; `makeRequest` / `GetMediaData` in progress
  | appending -- token held; fetch and extraction succeeded; about to append
  | signaling -- token held; result appended; about to send on `worklist`
  | releasing -- token held; about to run the deferred `<-tokens`
  | done     -- returned; token released
deriving DecidableEq

/-- Does the phase hold a token (acquired and not yet released)? -/
def holdsToken : TaskPhase → Bool
  | .start => false
  | .done => false
  | _ => true

/-- The state of one run of `scrapeImages` with `n` input URLs. -/
structure ScrapeState (n : Nat) where
  phase : Fin n → TaskPhase
  tokens : Nat          -- occupancy of the `tokens` channel
  results : List (Fin n) -- which task appended each record, in append order
  sent : Nat            -- total sends on `worklist`
  received : Nat        -- total receives on `worklist` by the main goroutine

/-- The initial state: every goroutine spawned, nothing else happened. -/
def initScrape (n : Nat) : ScrapeState n :=
  { phase := fun _ => .start, tokens := 0, results := [], sent := 0, received := 0 }

/-- One interleaved step of `scrapeImages` with token-channel capacity `B`
and fetch-and-extract outcome oracle `ok`. -/
inductive ScrapeStep (n : Nat) (B : Nat) (ok : Fin n → Bool) :
    ScrapeState n → ScrapeState n → Prop where
  | acquire (k : Fin n) (s : ScrapeState n) :
      s.phase k = .start → s.tokens < B →
      ScrapeStep n B ok s
        { s with phase := Function.update s.phase k .fetching, tokens := s.tokens + 1 }
  | fetchSucceeds (k : Fin n) (s : ScrapeState n) :
      s.phase k = .fetching → ok k = true →
      ScrapeStep n B ok s { s with phase := Function.update s.phase k .appending }
  | fetchFails (k : Fin n) (s : ScrapeState n) :
      s.phase k = .fetching → ok k = false →
      ScrapeStep n B ok s { s with phase := Function.update s.phase k .releasing }
  | append (k : Fin n) (s : ScrapeState n) :
      s.phase k = .appending →
      ScrapeStep n B ok s
        { s with phase := Function.update s.phase k .signaling, results := s.results ++ [k] }
  | signal (k : Fin n) (s : ScrapeState n) :
      s.phase k = .signaling → s.sent - s.received < n →
      ScrapeStep n B ok s
        { s with phase := Function.update s.phase k .releasing, sent := s.sent + 1 }
  | release (k : Fin n) (s : ScrapeState n) :
      s.phase k = .releasing → 0 < s.tokens →
      ScrapeStep n B ok s
        { s with phase := Function.update s.phase k .done, tokens := s.tokens - 1 }
  | recv (s : ScrapeState n) :
      s.received < s.sent →
      ScrapeStep n B ok s { s with received := s.received + 1 }

/-- Reachability from the initial state of `scrapeImages`. -/
def ScrapeReachable (n B : Nat) (ok : Fin n → Bool) (s : ScrapeState n) : Prop :=
  Relation.ReflTransGen (ScrapeStep n B ok) (initScrape n) s

/-- Number of indices where the boolean predicate holds. -/
def fcount {n : Nat} (q : Fin n → Bool) : Nat :=
  ∑ k : Fin n, if q k then 1 else 0

/-- Tasks currently in flight: token acquired and not yet released. -/
def inFlight {n : Nat} (s : ScrapeState n) : Nat :=
  fcount (fun k => holdsToken (s.phase k))

/-- Has the task passed its `worklist` send (when its fetch succeeded)?
`releasing` and `done` are the phases after the `signal` step. -/
def pastSignal : TaskPhase → Bool
  | .releasing => true
  | .done => true
  | _ => false

/-- Tasks that have sent their completion signal: fetch succeeded and the
phase is past the `signal` step. -/
def signaledCount {n : Nat} (ok : Fin n → Bool) (s : ScrapeState n) : Nat :=
  fcount (fun k => ok k && pastSignal (s.phase k))

/-- Invariant of every reachable state: the token-channel occupancy equals
the number of in-flight tasks and respects the capacity; only tasks whose
fetch-and-extract succeeded are on the success path; the `worklist` sends
are exactly the tasks past their signal; receives never exceed sends. -/
def ScrapeInv (n B : Nat) (ok : Fin n → Bool) (s : ScrapeState n) : Prop :=
  s.tokens = inFlight s ∧
  s.tokens ≤ B ∧
  (∀ k, s.phase k = .appending ∨ s.phase k = .signaling → ok k = true) ∧
  s.sent = signaledCount ok s ∧
  s.received ≤ s.sent

/-! ### Concrete inputs used by the witnesses -/

/-- Oracle for a single-URL run whose fetch and extraction succeed. -/
def okAll1 : Fin 1 → Bool := fun _ => true

/-- Oracle for a single-URL run whose fetch fails. -/
def okNone1 : Fin 1 → Bool := fun _ => false

/-- One-URL run, after the task acquired its token. -/
def w2s1 : ScrapeState 1 :=
  { phase := Function.update (initScrape 1).phase 0 .fetching, tokens := 1, results := [], sent := 0, received := 0 }

/-- ... after its fetch and extraction succeeded. -/
def w2s2 : ScrapeState 1 :=
  { phase := Function.update w2s1.phase 0 .appending, tokens := 1, results := [], sent := 0, received := 0 }

/-- ... after it appended its record under the mutex. -/
def w2s3 : ScrapeState 1 :=
  { phase := Function.update w2s2.phase 0 .signaling, tokens := 1, results := [0], sent := 0, received := 0 }

/-- ... after it sent its completion signal on `worklist`. -/
def w2s4 : ScrapeState 1 :=
  { phase := Function.update w2s3.phase 0 .releasing, tokens := 1, results := [0], sent := 1, received := 0 }

/-- ... after the main goroutine received the completion signal. -/
def w2s5 : ScrapeState 1 :=
  { phase := w2s4.phase, tokens := 1, results := [0], sent := 1, received := 1 }

/-- A model of `http.NewRequest` failing on one malformed URL (Go's URL
parser rejects a URL with an empty scheme). -/
def newRequestStub : String → Except String Request := fun url =>
  if url = "://bad" then .error "missing protocol scheme"
  else .ok { url := url, headers := [] }

/-- A network stub answering every request with status 503 and an empty
parsed body. -/
def doRequestStub : Request → Except String Response := fun req =>
  .ok { requestedURL := req.url, requestURL := req.url, statusCode := 503, parsedDoc := .ok [] }

/-- The spec's example sitemap: two location entries. -/
def exampleSitemap : Sitemap :=
  { urls := [{ loc := "https://x/1" }, { loc := "https://x/2" }] }

/-- An XML decoder stub returning the example sitemap. -/
def decodeStub : Response → Except String Sitemap := fun _ => .ok exampleSitemap

/-- The raw response carrying the sitemap body. -/
def sitemapResp : Response :=
  { requestedURL := "https://site.example/sitemap.xml", requestURL := "https://site.example/sitemap.xml",
    statusCode := 200, parsedDoc := .error "body is xml, not html" }

/-! ### Counting lemmas -/

@[simp] lemma holdsToken_start : holdsToken TaskPhase.start = false := rfl

@[simp] lemma holdsToken_fetching : holdsToken TaskPhase.fetching = true := rfl

@[simp] lemma holdsToken_appending : holdsToken TaskPhase.appending = true := rfl

@[simp] lemma holdsToken_signaling : holdsToken TaskPhase.signaling = true := rfl

@[simp] lemma holdsToken_releasing : holdsToken TaskPhase.releasing = true := rfl

@[simp] lemma holdsToken_done : holdsToken TaskPhase.done = false := rfl

@[simp] lemma pastSignal_start : pastSignal TaskPhase.start = false := rfl

@[simp] lemma pastSignal_fetching : pastSignal TaskPhase.fetching = false := rfl

@[simp] lemma pastSignal_appending : pastSignal TaskPhase.appending = false := rfl

@[simp] lemma pastSignal_signaling : pastSignal TaskPhase.signaling = false := rfl

@[simp] lemma pastSignal_releasing : pastSignal TaskPhase.releasing = true := rfl

@[simp] lemma pastSignal_done : pastSignal TaskPhase.done = true := rfl

lemma fcount_split {n : Nat} (q : Fin n → Bool) (k : Fin n) :
    fcount q = (if q k then 1 else 0) +
      ∑ j ∈ Finset.univ.erase k, (if q j then 1 else 0) :=
  (Finset.add_sum_erase _ _ (Finset.mem_univ k)).symm

/-- Changing a boolean family at one index changes the count by the
difference of the two values there. -/
lemma fcount_update {n : Nat} (q1 q2 : Fin n → Bool) (k : Fin n)
    (h : ∀ j, j ≠ k → q1 j = q2 j) :
    fcount q2 + (if q1 k then 1 else 0) = fcount q1 + (if q2 k then 1 else 0) := by
  rw [fcount_split q1 k, fcount_split q2 k]
  have he : ∑ j ∈ Finset.univ.erase k, (if q2 j then 1 else 0)
      = ∑ j ∈ Finset.univ.erase k, (if q1 j then 1 else 0) :=
    Finset.sum_congr rfl (fun j hj => by rw [h j (Finset.ne_of_mem_erase hj)])
  rw [he]
  omega

/-- The count after a pointwise-phase update, for any per-task predicate. -/
lemma fcount_phase_update {n : Nat} (P : Fin n → TaskPhase → Bool)
    (ph : Fin n → TaskPhase) (k : Fin n) (v : TaskPhase) :
    fcount (fun j => P j (Function.update ph k v j)) + (if P k (ph k) then 1 else 0)
      = fcount (fun j => P j (ph j)) + (if P k v then 1 else 0) := by
  have h := fcount_update (fun j => P j (ph j))
    (fun j => P j (Function.update ph k v j)) k
    (fun j hj => by simp [Function.update_noteq hj])
  simpa using h

lemma fcount_mono {n : Nat} {q1 q2 : Fin n → Bool}
    (h : ∀ k, q1 k = true → q2 k = true) : fcount q1 ≤ fcount q2 := by
  refine Finset.sum_le_sum (fun k _ => ?_)
  by_cases h1 : q1 k = true
  · rw [h1, h k h1]
  · simp [Bool.not_eq_true] at h1
    simp [h1]

lemma fcount_lt_of_false_lt_true {n : Nat} (q1 q2 : Fin n → Bool) (k0 : Fin n)
    (h : ∀ k, q1 k = true → q2 k = true) (h1 : q1 k0 = false) (h2 : q2 k0 = true) :
    fcount q1 < fcount q2 := by
  rw [fcount_split q1 k0, fcount_split q2 k0, h1, h2]
  have he : ∑ j ∈ Finset.univ.erase k0, (if q1 j then 1 else 0)
      ≤ ∑ j ∈ Finset.univ.erase k0, (if q2 j then 1 else 0) := by
    refine Finset.sum_le_sum (fun k _ => ?_)
    by_cases hq : q1 k = true
    · rw [hq, h k hq]
    · simp [Bool.not_eq_true] at hq
      simp [hq]
  simp only [Bool.false_eq_true, ite_true, ite_false, if_true, if_false]
  omega

lemma fcount_const_true {n : Nat} : fcount (fun _ : Fin n => true) = n := by
  simp [fcount]

/-! ### The run invariant of `scrapeImages` -/

lemma scrapeInv_init (n B : Nat) (ok : Fin n → Bool) : ScrapeInv n B ok (initScrape n) := by
  refine ⟨?_, ?_, ?_, ?_, ?_⟩ <;>
    simp [initScrape, inFlight, signaledCount, fcount, holdsToken, pastSignal]

lemma scrapeInv_step {n B : Nat} {ok : Fin n → Bool} {s s' : ScrapeState n}
    (hstep : ScrapeStep n B ok s s') (h : ScrapeInv n B ok s) : ScrapeInv n B ok s' := by
  obtain ⟨htok, hcap, hok, hsent, hrecv⟩ := h
  cases hstep with
  | acquire k s hk hlt =>
    have hfl := fcount_phase_update (fun _ t => holdsToken t) s.phase k .fetching
    have hsg := fcount_phase_update (fun j t => ok j && pastSignal t) s.phase k .fetching
    rw [hk] at hfl hsg
    simp only [holdsToken_start, holdsToken_fetching, pastSignal_start, pastSignal_fetching,
      Bool.and_false, if_true, if_false, Bool.false_eq_true, ite_true, ite_false] at hfl hsg
    refine ⟨?_, ?_, ?_, ?_, ?_⟩
    · show s.tokens + 1 = inFlight _
      simp only [inFlight] at htok ⊢
      omega
    · show s.tokens + 1 ≤ B
      omega
    · intro j hj
      rcases eq_or_ne j k with rfl | hne
      · simp only [Function.update_same] at hj
        rcases hj with hj | hj <;> exact absurd hj (by simp)
      · simp only [Function.update_noteq hne] at hj
        exact hok j hj
    · show s.sent = signaledCount ok _
      simp only [signaledCount] at hsent ⊢
      omega
    · show s.received ≤ s.sent
      exact hrecv
  | fetchSucceeds k s hk hokk =>
    have hfl := fcount_phase_update (fun _ t => holdsToken t) s.phase k .appending
    have hsg := fcount_phase_update (fun j t => ok j && pastSignal t) s.phase k .appending
    rw [hk] at hfl hsg
    simp only [holdsToken_fetching, holdsToken_appending, pastSignal_fetching,
      pastSignal_appending, Bool.and_false, if_true, if_false, Bool.false_eq_true,
      ite_true, ite_false] at hfl hsg
    refine ⟨?_, ?_, ?_, ?_, ?_⟩
    · show s.tokens = inFlight _
      simp only [inFlight] at htok ⊢
      omega
    · exact hcap
    · intro j hj
      rcases eq_or_ne j k with rfl | hne
      · exact hokk
      · simp only [Function.update_noteq hne] at hj
        exact hok j hj
    · show s.sent = signaledCount ok _
      simp only [signaledCount] at hsent ⊢
      omega
    · show s.received ≤ s.sent
      exact hrecv
  | fetchFails k s hk hokk =>
    have hfl := fcount_phase_update (fun _ t => holdsToken t) s.phase k .releasing
    have hsg := fcount_phase_update (fun j t => ok j && pastSignal t) s.phase k .releasing
    rw [hk] at hfl hsg
    simp only [holdsToken_fetching, holdsToken_releasing, pastSignal_fetching,
      pastSignal_releasing, hokk, Bool.and_false, Bool.and_true, Bool.false_and,
      if_true, if_false, Bool.false_eq_true, ite_true, ite_false] at hfl hsg
    refine ⟨?_, ?_, ?_, ?_, ?_⟩
    · show s.tokens = inFlight _
      simp only [inFlight] at htok ⊢
      omega
    · exact hcap
    · intro j hj
      rcases eq_or_ne j k with rfl | hne
      · simp only [Function.update_same] at hj
        rcases hj with hj | hj <;> exact absurd hj (by simp)
      · simp only [Function.update_noteq hne] at hj
        exact hok j hj
    · show s.sent = signaledCount ok _
      simp only [signaledCount] at hsent ⊢
      omega
    · show s.received ≤ s.sent
      exact hrecv
  | append k s hk =>
    have hfl := fcount_phase_update (fun _ t => holdsToken t) s.phase k .signaling
    have hsg := fcount_phase_update (fun j t => ok j && pastSignal t) s.phase k .signaling
    rw [hk] at hfl hsg
    simp only [holdsToken_appending, holdsToken_signaling, pastSignal_appending,
      pastSignal_signaling, Bool.and_false, if_true, if_false, Bool.false_eq_true,
      ite_true, ite_false] at hfl hsg
    refine ⟨?_, ?_, ?_, ?_, ?_⟩
    · show s.tokens = inFlight _
      simp only [inFlight] at htok ⊢
      omega
    · exact hcap
    · intro j hj
      rcases eq_or_ne j k with rfl | hne
      · exact hok j (Or.inl hk)
      · simp only [Function.update_noteq hne] at hj
        exact hok j hj
    · show s.sent = signaledCount ok _
      simp only [signaledCount] at hsent ⊢
      omega
    · show s.received ≤ s.sent
      exact hrecv
  | signal k s hk hbuf =>
    have hokk : ok k = true := hok k (Or.inr hk)
    have hfl := fcount_phase_update (fun _ t => holdsToken t) s.phase k .releasing
    have hsg := fcount_phase_update (fun j t => ok j && pastSignal t) s.phase k .releasing
    rw [hk] at hfl hsg
    simp only [holdsToken_signaling, holdsToken_releasing, pastSignal_signaling,
      pastSignal_releasing, hokk, Bool.and_false, Bool.and_true, Bool.true_and,
      if_true, if_false, Bool.false_eq_true, ite_true, ite_false] at hfl hsg
    refine ⟨?_, ?_, ?_, ?_, ?_⟩
    · show s.tokens = inFlight _
      simp only [inFlight] at htok ⊢
      omega
    · exact hcap
    · intro j hj
      rcases eq_or_ne j k with rfl | hne
      · simp only [Function.update_same] at hj
        rcases hj with hj | hj <;> exact absurd hj (by simp)
      · simp only [Function.update_noteq hne] at hj
        exact hok j hj
    · show s.sent + 1 = signaledCount ok _
      simp only [signaledCount] at hsent ⊢
      omega
    · show s.received ≤ s.sent + 1
      omega
  | release k s hk hpos =>
    have hfl := fcount_phase_update (fun _ t => holdsToken t) s.phase k .done
    have hsg := fcount_phase_update (fun j t => ok j && pastSignal t) s.phase k .done
    rw [hk] at hfl hsg
    simp only [holdsToken_releasing, holdsToken_done, pastSignal_releasing, pastSignal_done,
      Bool.and_true, if_true, if_false, Bool.false_eq_true, ite_true, ite_false] at hfl hsg
    refine ⟨?_, ?_, ?_, ?_, ?_⟩
    · show s.tokens - 1 = inFlight _
      simp only [inFlight] at htok ⊢
      omega
    · show s.tokens - 1 ≤ B
      omega
    · intro j hj
      rcases eq_or_ne j k with rfl | hne
      · simp only [Function.update_same] at hj
        rcases hj with hj | hj <;> exact absurd hj (by simp)
      · simp only [Function.update_noteq hne] at hj
        exact hok j hj
    · show s.sent = signaledCount ok _
      simp only [signaledCount] at hsent ⊢
      omega
    · show s.received ≤ s.sent
      exact hrecv
  | recv s hlt =>
    refine ⟨htok, hcap, hok, hsent, ?_⟩
    show s.received + 1 ≤ s.sent
    omega

/-- Every reachable state of `scrapeImages` satisfies the run invariant. -/
lemma scrapeReachable_inv {n B : Nat} {ok : Fin n → Bool} {s : ScrapeState n}
    (h : ScrapeReachable n B ok s) : ScrapeInv n B ok s := by
  induction h with
  | refl => exact scrapeInv_init n B ok
  | tail _ hstep ih => exact scrapeInv_step hstep ih

/-- In every reachable state the receive count of the main goroutine stays
strictly below `n` as soon as one task's fetch or extraction fails: the
failed task never sends on `worklist`. -/
lemma scrape_received_lt_of_failure {n B : Nat} {ok : Fin n → Bool} {s : ScrapeState n}
    (h : ScrapeReachable n B ok s) (k0 : Fin n) (hk0 : ok k0 = false) :
    s.received < n := by
  obtain ⟨-, -, -, hsent, hrecv⟩ := scrapeReachable_inv h
  have h1 : signaledCount ok s ≤ fcount ok :=
    fcount_mono (fun k hk => by
      simpa using (Bool.and_elim_left (hk ▸ rfl : (ok k && pastSignal (s.phase k)) = true)))
  have h2 : fcount ok < n := by
    have := fcount_lt_of_false_lt_true ok (fun _ => true) k0 (fun _ _ => rfl) hk0 rfl
    rwa [fcount_const_true] at this
  omega

/-! ## List-fold helpers -/

lemma foldl_append_loc (l : List SitemapEntry) (acc : List String) :
    l.foldl (fun a u => a ++ [u.loc]) acc = acc ++ l.map SitemapEntry.loc := by
  induction l generalizing acc with
  | nil => simp
  | cons x xs ih => simp [ih]

lemma foldl_src_filterMap (l : List HtmlNode) (acc : List String) :
    l.foldl
      (fun a s =>
        match nodeAttr s "src" with
        | some src => a ++ [src]
        | none => a)
      acc = acc ++ l.filterMap (fun nd => nodeAttr nd "src") := by
  induction l generalizing acc with
  | nil => simp
  | cons x xs ih =>
    cases hx : nodeAttr x "src" with
    | none => simp [List.foldl_cons, hx, ih]
    | some v => simp [List.foldl_cons, hx, ih]

lemma collectImageURLs_eq_filterMap (l : List HtmlNode) :
    collectImageURLs l = l.filterMap (fun nd => nodeAttr nd "src") := by
  unfold collectImageURLs
  rw [foldl_src_filterMap]
  simp

lemma selectionAttr_eq_head_bind (sel : List HtmlNode) (name : String) :
    selectionAttr sel name = sel.head?.bind (fun nd => nodeAttr nd name) := by
  cases sel <;> rfl

/-! ## The claims -/

/-- C1: the claim says every task that fails its fetch or extraction still
reports completion, and `scrapeImages` returns after exactly one completion
signal per input URL.  The code violates this: a failed task returns before
the `worklist <- url` send, so in every reachable state the main goroutine
has received strictly fewer than `n` signals, and its `for range urls`
receive loop — the only exit of `scrapeImages` — can never complete. -/
theorem scrapeImages_never_returns_after_failure {n B : Nat} {ok : Fin n → Bool}
    {s : ScrapeState n} (h : ScrapeReachable n B ok s) (k0 : Fin n)
    (hk0 : ok k0 = false) : s.received < n :=
  scrape_received_lt_of_failure h k0 hk0

/-- Witness: a single-URL run whose fetch fails, with the concurrency 50 of
`main`; at the initial state the coordinator has received no signal. -/
theorem scrapeImages_never_returns_after_failure_witness :
    (initScrape 1).received < 1 := by
  have hr : ScrapeReachable 1 50 okNone1 (initScrape 1) := Relation.ReflTransGen.refl
  exact scrapeImages_never_returns_after_failure hr 0 rfl

/-- C2: the claim says with `K` failing URLs out of `N` the returned
collection has `N - K` records.  The code violates it for `K ≥ 1`: the
receive loop finishes (`received = n`) only when every task's fetch and
extraction succeeded, i.e. only when `K = 0`; otherwise `scrapeImages`
never returns at all. -/
theorem scrapeImages_returns_only_without_failures {n B : Nat} {ok : Fin n → Bool}
    {s : ScrapeState n} (h : ScrapeReachable n B ok s) (hret : s.received = n) :
    ∀ k, ok k = true := by
  intro k
  by_contra hk
  have hk' : ok k = false := by
    revert hk
    cases ok k <;> simp
  have := scrape_received_lt_of_failure h k hk'
  omega

/-- Witness: the complete five-step run of a single successful URL, ending
with the coordinator having received its one completion signal. -/
theorem scrapeImages_returns_only_without_failures_witness : okAll1 0 = true := by
  have h1 : ScrapeStep 1 1 okAll1 (initScrape 1) w2s1 :=
    ScrapeStep.acquire 0 (initScrape 1) (by decide) (by decide)
  have h2 : ScrapeStep 1 1 okAll1 w2s1 w2s2 :=
    ScrapeStep.fetchSucceeds 0 w2s1 (by decide) (by decide)
  have h3 : ScrapeStep 1 1 okAll1 w2s2 w2s3 :=
    ScrapeStep.append 0 w2s2 (by decide)
  have h4 : ScrapeStep 1 1 okAll1 w2s3 w2s4 :=
    ScrapeStep.signal 0 w2s3 (by decide) (by decide)
  have h5 : ScrapeStep 1 1 okAll1 w2s4 w2s5 :=
    ScrapeStep.recv w2s4 (by decide)
  have hr : ScrapeReachable 1 1 okAll1 w2s5 :=
    Relation.ReflTransGen.head h1 (Relation.ReflTransGen.head h2
      (Relation.ReflTransGen.head h3 (Relation.ReflTransGen.head h4
        (Relation.ReflTransGen.single h5))))
  exact scrapeImages_returns_only_without_failures hr (by decide) 0

/-- C3: at every instant of a run of `scrapeImages` with budget `B ≥ 1`,
the number of tasks that have acquired the admission gate (`tokens <-`) and
not yet released it (the deferred `<-tokens`, run on success and failure
alike) is at most `B`. -/
theorem scrapeImages_inFlight_le_budget {n B : Nat} {ok : Fin n → Bool}
    {s : ScrapeState n} (hB : 1 ≤ B) (h : ScrapeReachable n B ok s) :
    inFlight s ≤ B := by
  obtain ⟨htok, hcap, -, -, -⟩ := scrapeReachable_inv h
  omega

/-- Witness: after one acquire step of a single-URL run with budget 1, the
in-flight count is within the budget. -/
theorem scrapeImages_inFlight_le_budget_witness : inFlight w2s1 ≤ 1 := by
  have hr : ScrapeReachable 1 1 okAll1 w2s1 :=
    Relation.ReflTransGen.single (ScrapeStep.acquire 0 (initScrape 1) (by decide) (by decide))
  exact scrapeImages_inFlight_le_budget (le_refl 1) hr

/-- C4: the claim says `makeRequest` returns errors as values — in
particular the construction error on a malformed URL — and never panics.
The code violates the malformed-URL part: `req.Header.Set` runs before the
`err != nil` check, so when `http.NewRequest` fails the nil request is
dereferenced and the program panics instead of returning the error.  The
other parts hold: a transport error from `client.Do` is returned as a
value, and any delivered response — whatever its status code — is returned
as a normal response. -/
theorem makeRequest_outcomes :
    (∀ (nr : String → Except String Request) (dr : Request → Except String Response)
        (ri : Int → Nat) (now : Int) (url e : String),
        nr url = .error e → makeRequest nr dr ri now url = .panicked) ∧
    (∀ (nr : String → Except String Request) (dr : Request → Except String Response)
        (ri : Int → Nat) (now : Int) (url : String) (req : Request) (e : String),
        nr url = .ok req →
        dr (setHeader req "User-Agent" (randomUserAgent ri now)) = .error e →
        makeRequest nr dr ri now url = .err e) ∧
    (∀ (nr : String → Except String Request) (dr : Request → Except String Response)
        (ri : Int → Nat) (now : Int) (url : String) (req : Request) (res : Response),
        nr url = .ok req →
        dr (setHeader req "User-Agent" (randomUserAgent ri now)) = .ok res →
        makeRequest nr dr ri now url = .ok res) := by
  refine ⟨?_, ?_, ?_⟩
  · intro nr dr ri now url e h
    simp [makeRequest, h]
  · intro nr dr ri now url req e h1 h2
    simp [makeRequest, h1, h2]
  · intro nr dr ri now url req res h1 h2
    simp [makeRequest, h1, h2]

/-- Witness: on the malformed URL the run panics; on a well-formed URL a
503 response comes back as a normal value, not an error. -/
theorem makeRequest_outcomes_witness :
    newRequestStub "://bad" = .error "missing protocol scheme" ∧
    makeRequest newRequestStub doRequestStub Int.toNat 0 "://bad" = .panicked ∧
    makeRequest newRequestStub doRequestStub Int.toNat 0 "http://site.example/a" =
      .ok { requestedURL := "http://site.example/a", requestURL := "http://site.example/a",
            statusCode := 503, parsedDoc := .ok [] } := by
  refine ⟨rfl, ?_, ?_⟩
  · exact makeRequest_outcomes.1 newRequestStub doRequestStub Int.toNat 0 "://bad"
      "missing protocol scheme" rfl
  · exact makeRequest_outcomes.2.2 newRequestStub doRequestStub Int.toNat 0
      "http://site.example/a" { url := "http://site.example/a", headers := [] } _ rfl rfl

/-- C5: `parseSitemap` propagates a fetch failure, propagates a decode
failure, and on success returns exactly the `<loc>` texts of the decoded
entries, as a flat list in document order. -/
theorem parseSitemap_flat_ordered_or_error :
    (∀ (decode : Response → Except String Sitemap) (e : String),
        parseSitemap (.err e) decode = .err e) ∧
    (∀ (decode : Response → Except String Sitemap) (resp : Response) (e : String),
        decode resp = .error e → parseSitemap (.ok resp) decode = .err e) ∧
    (∀ (decode : Response → Except String Sitemap) (resp : Response) (sm : Sitemap),
        decode resp = .ok sm →
        parseSitemap (.ok resp) decode = .ok (sm.urls.map SitemapEntry.loc)) := by
  refine ⟨fun d e => rfl, ?_, ?_⟩
  · intro d resp e h
    simp [parseSitemap, h]
  · intro d resp sm h
    simp [parseSitemap, h, foldl_append_loc]

/-- Witness: the spec's two-entry sitemap decodes to exactly its two URLs
in document order. -/
theorem parseSitemap_flat_ordered_or_error_witness :
    parseSitemap (.ok sitemapResp) decodeStub = .ok ["https://x/1", "https://x/2"] := by
  have h := parseSitemap_flat_ordered_or_error.2.2 decodeStub sitemapResp exampleSitemap rfl
  simpa using h

/-- C6: for every parseable document, the extracted image list is the `src`
attribute of every `img` element that has one, in document order, skipping
`img` elements without the attribute; on the spec's example the result is
exactly `a.png` then `b.jpg`. -/
theorem getMediaData_images_in_document_order :
    (∀ (resp : Response) (doc : List HtmlNode) (md : MediaData),
        resp.parsedDoc = .ok doc → GetMediaData resp = .ok md →
        md.imageURLs = (findAllList isImg doc).filterMap (fun nd => nodeAttr nd "src")) ∧
    GetMediaData exampleImgResp =
      .ok { url := "https://final.example/page", imageURLs := ["a.png", "b.jpg"],
            statusCode := 200, meta := "" } := by
  constructor
  · intro resp doc md hdoc hmd
    simp only [GetMediaData, hdoc] at hmd
    rw [Except.ok.injEq] at hmd
    subst hmd
    simp [collectImageURLs_eq_filterMap]
  · rfl

/-- Witness: the general image-extraction statement applied to the second
example document, whose single `img` carries `x.gif`. -/
theorem getMediaData_images_in_document_order_witness :
    ∃ md : MediaData, GetMediaData exampleMetaResp = .ok md ∧
      md.imageURLs = (findAllList isImg exampleMetaDoc).filterMap (fun nd => nodeAttr nd "src") := by
  refine ⟨{ url := "http://site.example/a", imageURLs := ["x.gif"],
            statusCode := 200, meta := "hello" }, rfl, ?_⟩
  exact getMediaData_images_in_document_order.1 exampleMetaResp exampleMetaDoc _ rfl rfl

/-- C7: the extracted meta snippet is the `content` attribute of the first
`meta` element whose `name` starts with `description`, in document order;
with no such element (or no `content` on it) the snippet is the empty
string and extraction still succeeds. -/
theorem getMediaData_meta_first_description :
    (∀ (resp : Response) (doc : List HtmlNode) (md : MediaData),
        resp.parsedDoc = .ok doc → GetMediaData resp = .ok md →
        md.meta = ((findAllList isDescriptionMeta doc).head?.bind
          (fun nd => nodeAttr nd "content")).getD "") ∧
    GetMediaData exampleMetaResp =
      .ok { url := "http://site.example/a", imageURLs := ["x.gif"],
            statusCode := 200, meta := "hello" } ∧
    GetMediaData exampleNoMetaResp =
      .ok { url := "http://site.example/b", imageURLs := [],
            statusCode := 404, meta := "" } := by
  refine ⟨?_, rfl, rfl⟩
  intro resp doc md hdoc hmd
  simp only [GetMediaData, hdoc] at hmd
  rw [Except.ok.injEq] at hmd
  subst hmd
  simp [selectionAttr_eq_head_bind]

/-- Witness: the general meta-snippet statement applied to the example
document with no description meta, yielding the empty snippet. -/
theorem getMediaData_meta_first_description_witness :
    ∃ md : MediaData, GetMediaData exampleImgResp = .ok md ∧
      md.meta = ((findAllList isDescriptionMeta exampleImgDoc).head?.bind
        (fun nd => nodeAttr nd "content")).getD "" := by
  refine ⟨{ url := "https://final.example/page", imageURLs := ["a.png", "b.jpg"],
            statusCode := 200, meta := "" }, rfl, ?_⟩
  exact getMediaData_meta_first_description.1 exampleImgResp exampleImgDoc _ rfl rfl

/-- C8: `GetMediaData` fails exactly when the body does not parse as an
HTML document; on success the record's StatusCode and URL come from the
response metadata, the URL being the effective (post-redirect) request
URL. -/
theorem getMediaData_error_iff_unparsable :
    ∀ resp : Response,
      ((∃ e, GetMediaData resp = .error e) ↔ (∃ e, resp.parsedDoc = .error e)) ∧
      (∀ md : MediaData, GetMediaData resp = .ok md →
        md.statusCode = resp.statusCode ∧ md.url = resp.requestURL) := by
  intro resp
  constructor
  · cases hd : resp.parsedDoc with
    | error e => simp [GetMediaData, hd]
    | ok doc => simp [GetMediaData, hd]
  · intro md hmd
    cases hd : resp.parsedDoc with
    | error e => simp [GetMediaData, hd] at hmd
    | ok doc =>
      simp only [GetMediaData, hd] at hmd
      rw [Except.ok.injEq] at hmd
      subst hmd
      exact ⟨rfl, rfl⟩

/-- Witness: on the redirected example response the record carries status
200 and the final URL, which differs from the originally requested one. -/
theorem getMediaData_error_iff_unparsable_witness :
    ∃ md : MediaData, GetMediaData exampleImgResp = .ok md ∧
      md.statusCode = exampleImgResp.statusCode ∧ md.url = exampleImgResp.requestURL ∧
      exampleImgResp.requestedURL ≠ exampleImgResp.requestURL := by
  obtain ⟨h1, h2⟩ := (getMediaData_error_iff_unparsable exampleImgResp).2
    { url := "https://final.example/page", imageURLs := ["a.png", "b.jpg"],
      statusCode := 200, meta := "" } rfl
  exact ⟨_, rfl, h1, h2, by decide⟩

/-- C9: the extractor is deterministic and idempotent — any number of
applications to one fixed response yield pairwise identical results. -/
theorem extractor_idempotent :
    ∀ (resp : Response) (n : Nat),
      (extractRepeatedly resp n).Pairwise (fun a b => a = b) := by
  intro resp n
  unfold extractRepeatedly
  rw [List.pairwise_map]
  have hall : ∀ l : List Nat, l.Pairwise (fun _ _ => GetMediaData resp = GetMediaData resp) := by
    intro l
    induction l with
    | nil => exact List.Pairwise.nil
    | cons x xs ih => exact List.Pairwise.cons (fun y hy => rfl) ih
  exact hall (List.range n)

/-- C10: `randomUserAgent` reseeds with the wall clock truncated to whole
seconds, so two calls in the same second draw the same seed and return the
same string; and the drawn index is always in bounds, so the result is
always one of the three pooled strings. -/
theorem randomUserAgent_seeded_by_second_in_pool :
    (∀ (ri : Int → Nat) (t1 t2 : Int), unixSeconds t1 = unixSeconds t2 →
        randomUserAgent ri t1 = randomUserAgent ri t2) ∧
    (∀ (ri : Int → Nat) (t : Int), randomUserAgent ri t ∈ userAgents) := by
  constructor
  · intro ri t1 t2 h
    unfold randomUserAgent
    congr 1
    apply Fin.ext
    simp [h]
  · intro ri t
    unfold randomUserAgent
    apply List.get_mem

/-- Witness: two calls at 1500 ms and 1999 ms fall in the same whole
second and return the identical pooled string. -/
theorem randomUserAgent_seeded_by_second_in_pool_witness :
    unixSeconds 1500 = unixSeconds 1999 ∧
    randomUserAgent Int.toNat 1500 = randomUserAgent Int.toNat 1999 ∧
    randomUserAgent Int.toNat 1500 ∈ userAgents := by
  refine ⟨by decide, ?_, ?_⟩
  · exact randomUserAgent_seeded_by_second_in_pool.1 Int.toNat 1500 1999 (by decide)
  · exact randomUserAgent_seeded_by_second_in_pool.2 Int.toNat 1500
